import Mathlib

/-!
Verification of the blogue schema-inference engine
(`packages/blogue-core/src`): the statistical frontmatter pattern
learner (`pattern-detection.ts`), the Zod schema introspection service
(`schema-introspection.ts`), and the conflict-resolution policy of the
post creator (`index.ts`).  TypeScript numbers are modelled by `ℚ`
(all arithmetic the engine performs is exact on small rationals),
records (`Record<string, any>`) by association lists with distinct
keys, and JavaScript runtime values by the inductive type `JsValue`.
-/

namespace Blogue

/-- A JavaScript runtime value as it can occur in parsed frontmatter.
`date t` stands for a `Date` instance at epoch instant `t`; object
identity (JS reference equality) is approximated by structural
equality, which none of the verified properties depend on. -/
inductive JsValue where
  | str (s : String)
  | num (q : ℚ)
  | bool (b : Bool)
  | date (t : ℤ)
  | arr (elems : List JsValue)
  | obj (fields : List (String × JsValue))
  | jsNull

mutual

/-- Structural equality on `JsValue` (stands in for the SameValueZero
comparison of `Array.prototype.includes`; see the note on `JsValue`). -/
def JsValue.beq : JsValue → JsValue → Bool
  | .str a, .str b => a == b
  | .num a, .num b => a == b
  | .bool a, .bool b => a == b
  | .date a, .date b => a == b
  | .arr a, .arr b => JsValue.beqList a b
  | .obj a, .obj b => JsValue.beqFields a b
  | .jsNull, .jsNull => true
  | _, _ => false

/-- Elementwise `JsValue.beq` on lists. -/
def JsValue.beqList : List JsValue → List JsValue → Bool
  | [], [] => true
  | a :: as, b :: bs => JsValue.beq a b && JsValue.beqList as bs
  | _, _ => false

/-- Entrywise `JsValue.beq` on key-value lists. -/
def JsValue.beqFields : List (String × JsValue) → List (String × JsValue) → Bool
  | [], [] => true
  | (k, v) :: as, (k2, v2) :: bs =>
    k == k2 && JsValue.beq v v2 && JsValue.beqFields as bs
  | _, _ => false

end

instance : BEq JsValue := ⟨JsValue.beq⟩

/-- JavaScript `typeof` on a `JsValue` (`typeof null` is `"object"`,
arrays and `Date`s are `"object"` too). -/
def jsTypeof : JsValue → String
  | .str _ => "string"
  | .num _ => "number"
  | .bool _ => "boolean"
  | .date _ => "object"
  | .arr _ => "object"
  | .obj _ => "object"
  | .jsNull => "object"

/-- The observed value kind recorded by the pattern learner:
`Array.isArray(value) ? 'array' : typeof value` (pattern-detection.ts). -/
def valueTypeOf (v : JsValue) : String :=
  match v with
  | .arr _ => "array"
  | v => jsTypeof v

/-- `Object.keys(v)` for the values `typeof v === 'object'` can take:
own enumerable keys of an object, index keys of an array, none for a
`Date`.  Only used through emptiness tests. -/
def jsOwnKeys : JsValue → List String
  | .obj fields => fields.map Prod.fst
  | .arr elems => (List.range elems.length).map toString
  | _ => []

/-- `typeof v === 'object' && v !== null && Object.keys(v).length === 0`:
the "empty object" test used by `shouldSkipField` and
`detectSchemaConflicts`. -/
def isEmptyObjectLike (v : JsValue) : Bool :=
  jsTypeof v == "object" && v != JsValue.jsNull && (jsOwnKeys v).length == 0

/-- A parsed frontmatter map (`Record<string, any>` from gray-matter);
JS object keys are unique, which theorems assume where it matters. -/
abbrev Sample := List (String × JsValue)

/-- `FieldPattern` (pattern-detection.ts): per-field observation summary.
During accumulation `frequency` holds the raw occurrence count; it is
divided by the sample count afterwards (two-phase construct). -/
structure FieldPattern where
  fieldName : String
  frequency : ℚ
  types : List String
  examples : List JsValue

/-- One occurrence of a field: bump the count, record a new value kind,
keep up to three distinct example values (the body of the inner loop of
`analyzeFrontmatterPatterns`). -/
def recordOccurrence (p : FieldPattern) (v : JsValue) : FieldPattern :=
  { p with
    frequency := p.frequency + 1
    types := if p.types.contains (valueTypeOf v) then p.types else p.types ++ [valueTypeOf v]
    examples :=
      if p.examples.length < 3 && !(p.examples.contains v) then p.examples ++ [v]
      else p.examples }

/-- Insert one observed `(fieldName, value)` pair into the accumulating
field map.  The JS code uses a `Map<string, FieldPattern>` keyed by field
name with insertion-order iteration; an association list updated in place
is the same structure. -/
def insertOccurrence (m : List FieldPattern) (name : String) (v : JsValue) :
    List FieldPattern :=
  match m with
  | [] => [recordOccurrence ⟨name, 0, [], []⟩ v]
  | p :: rest =>
    if p.fieldName = name then recordOccurrence p v :: rest
    else p :: insertOccurrence rest name v

/-- Fold one sample's entries into the field map. -/
def accumSample (m : List FieldPattern) (s : Sample) : List FieldPattern :=
  s.foldl (fun m kv => insertOccurrence m kv.1 kv.2) m

/-- The accumulation phase of `analyzeFrontmatterPatterns`: stream all
samples through the field map. -/
def accumSamples (samples : List Sample) : List FieldPattern :=
  samples.foldl accumSample []

/-- `calculateConfidence` (pattern-detection.ts 169-188). -/
def calculateConfidence (fields : List FieldPattern) (totalPosts : ℕ) : ℚ :=
  if totalPosts < 2 then 1/2
  else
    let requiredFieldCount :=
      (fields.filter (fun f => decide ((4:ℚ)/5 ≤ f.frequency))).length
    let hasTitle :=
      fields.any (fun f => f.fieldName == "title" && decide ((4:ℚ)/5 ≤ f.frequency))
    let hasDate :=
      fields.any (fun f =>
        (f.fieldName == "date" || f.fieldName == "publishedAt" || f.fieldName == "publishDate")
          && decide ((4:ℚ)/5 ≤ f.frequency))
    let confidence : ℚ := 3/5
    let confidence := if hasTitle then confidence + 1/5 else confidence
    let confidence := if hasDate then confidence + 1/5 else confidence
    let confidence := if 3 ≤ requiredFieldCount then confidence + 1/10 else confidence
    let confidence := if 5 ≤ totalPosts then confidence + 1/10 else confidence
    min confidence 1

/-- `FrontmatterPattern` (pattern-detection.ts). -/
structure FrontmatterPattern where
  commonFields : List FieldPattern
  requiredFields : List String
  optionalFields : List String
  rareFields : List String
  totalPosts : ℕ
  confidence : ℚ

/-- `analyzeFrontmatterPatterns` (pattern-detection.ts 102-164): count
occurrences, normalize to frequencies, bucket by the 0.8 / 0.2
thresholds (the source's single if/else-if loop is written as three
filters, which push exactly the same names in the same order), and
attach the confidence score.  The source is only called with a
non-empty sample list. -/
def analyzeFrontmatterPatterns (samples : List Sample) : FrontmatterPattern :=
  let totalPosts := samples.length
  let commonFields :=
    (accumSamples samples).map
      (fun p => { p with frequency := p.frequency / (totalPosts : ℚ) })
  let requiredFields :=
    (commonFields.filter (fun f => decide ((4:ℚ)/5 ≤ f.frequency))).map (·.fieldName)
  let optionalFields :=
    (commonFields.filter (fun f =>
      !decide ((4:ℚ)/5 ≤ f.frequency) && decide ((1:ℚ)/5 ≤ f.frequency))).map (·.fieldName)
  let rareFields :=
    (commonFields.filter (fun f =>
      !decide ((4:ℚ)/5 ≤ f.frequency) && !decide ((1:ℚ)/5 ≤ f.frequency))).map (·.fieldName)
  { commonFields := commonFields
    requiredFields := requiredFields
    optionalFields := optionalFields
    rareFields := rareFields
    totalPosts := totalPosts
    confidence := calculateConfidence commonFields totalPosts }

/-- The wall clock at the moment a template is synthesized:
`isoFull` stands for `new Date().toISOString()` (a timestamp-level ISO
string), `dateOnly` for `new Date().toISOString().split('T')[0]` (the
current date as a `YYYY-MM-DD` string), and `instant` for the `Date`
instance `new Date()` itself. -/
structure Clock where
  isoFull : String
  dateOnly : String
  instant : ℤ

/-- The regex `/^\d{4}-\d{2}-\d{2}$/` of `getDateValueMatchingPattern`:
a plain calendar-date string. -/
def isSimpleDateString (s : String) : Bool :=
  match s.data with
  | [a, b, c, d, h1, e, f, h2, g, h] =>
    a.isDigit && b.isDigit && c.isDigit && d.isDigit && h1 == '-'
      && e.isDigit && f.isDigit && h2 == '-' && g.isDigit && h.isDigit
  | _ => false

/-- `typeof ex === 'string'`. -/
def isStrValue : JsValue → Bool
  | .str _ => true
  | _ => false

/-- `ex instanceof Date`. -/
def isDateValue : JsValue → Bool
  | .date _ => true
  | _ => false

/-- A string example matching the plain calendar-date regex. -/
def isSimpleDateStrValue : JsValue → Bool
  | .str s => isSimpleDateString s
  | _ => false

/-- `getDateValueMatchingPattern` (pattern-detection.ts 290-315):
choose the representation of the synthesized date default from the
representations observed in the examples. -/
def getDateValueMatchingPattern (clock : Clock) (pattern : FieldPattern) : JsValue :=
  let hasStringDates := pattern.examples.any isStrValue
  let hasDateObjects := pattern.examples.any isDateValue
  if hasStringDates && !hasDateObjects then
    let stringExamples := pattern.examples.filter isStrValue
    let isSimpleDateFormat := stringExamples.any isSimpleDateStrValue
    if isSimpleDateFormat then .str clock.dateOnly
    else .str clock.isoFull
  else if hasDateObjects && !hasStringDates then .date clock.instant
  else .date clock.instant

/-- `shouldSkipField` (pattern-detection.ts 193-209): drop fields whose
recorded type set contains `object` and whose every example is an empty
object (the `console.log` side channel is irrelevant to the result). -/
def shouldSkipField (_fieldName : String) (fieldPattern : FieldPattern) : Bool :=
  fieldPattern.types.contains "object" && fieldPattern.examples.all isEmptyObjectLike

/-- `getDefaultValueForField` (pattern-detection.ts 249-285). -/
def getDefaultValueForField (clock : Clock) (fieldName : String) (pattern : FieldPattern) :
    JsValue :=
  match fieldName.toLower with
  | "title" => .str ""
  | "date" | "publishedat" | "publishdate" | "created" | "updatedat" | "modified"
  | "lastmod" => getDateValueMatchingPattern clock pattern
  | "draft" => .bool true
  | "tags" | "categories" => .arr []
  | "author" | "description" => .str ""
  | "published" => .bool false
  | _ =>
    match pattern.types.head? with
    | some "boolean" => .bool false
    | some "number" => .num 0
    | some "array" => .arr []
    | some "object" => .obj []
    | _ => .str ""

/-- JS object assignment `template[k] = v` on an association list. -/
def objSet (o : List (String × JsValue)) (k : String) (v : JsValue) :
    List (String × JsValue) :=
  match o with
  | [] => [(k, v)]
  | (k2, v2) :: rest => if k2 = k then (k2, v) :: rest else (k2, v2) :: objSet rest k v

/-- `generateTemplate` (pattern-detection.ts 214-244): default values
for the required fields, then the optional fields; rare fields and
always-empty object fields are excluded. -/
def generateTemplate (clock : Clock) (pattern : FrontmatterPattern) :
    List (String × JsValue) :=
  let addFields (template : List (String × JsValue)) (names : List String) :=
    names.foldl (fun template fieldName =>
      match pattern.commonFields.find? (fun f => f.fieldName == fieldName) with
      | none => template
      | some fieldPattern =>
        if shouldSkipField fieldName fieldPattern then template
        else objSet template fieldName (getDefaultValueForField clock fieldName fieldPattern))
      template
  addFields (addFields [] pattern.requiredFields) pattern.optionalFields

/-- `DetectionResult` (pattern-detection.ts).  The nullable fields are
`Option`s. -/
structure DetectionResult where
  pattern : Option FrontmatterPattern
  success : Bool
  message : String
  suggestedTemplate : Option (List (String × JsValue))

/-- A file of the content directory as the pattern detector sees it:
its name, and the outcome of `matter(readFileSync(...))` on its text —
`none` when parsing throws, otherwise the frontmatter map (gray-matter
and the file reads are external collaborators, so their outcome is part
of the input). -/
structure MdFile where
  name : String
  parsed : Option Sample

/-- Node's `path.extname`: the suffix from the last `.`, empty when
there is no dot or the name starts with its only dot.  (Node's special
case for the names `.` and `..` is not reproduced; it cannot yield
`".md"` either way.) -/
def extname (name : String) : String :=
  let cs := name.data
  let afterRev := cs.reverse.takeWhile (fun c => c ≠ '.')
  if afterRev.length = cs.length then ""
  else if cs.length - afterRev.length - 1 = 0 then ""
  else String.mk ('.' :: afterRev.reverse)

/-- JS `Math.round`. -/
def jsRound (q : ℚ) : ℤ := ⌊q + 1/2⌋

/-- `detectFrontmatterPattern` (pattern-detection.ts 37-97).  The file
system is passed in: `dir = none` models a directory that fails
`existsSync`, otherwise `dir = some files` is the `readdirSync`
listing.  The function is total: no branch throws to the caller. -/
def detectFrontmatterPattern (contentDir : String) (dir : Option (List MdFile))
    (clock : Clock) (maxPosts : ℕ := 10) : DetectionResult :=
  match dir with
  | none =>
    { pattern := none, success := false
      message := "Directory not found: " ++ contentDir, suggestedTemplate := none }
  | some files =>
    let markdownFiles := (files.filter (fun f => extname f.name == ".md")).take maxPosts
    if markdownFiles.length = 0 then
      { pattern := none, success := false
        message := "No markdown files found to analyze", suggestedTemplate := none }
    else
      let frontmatterSamples := markdownFiles.foldl (fun acc f =>
        match f.parsed with
        | some data => if 0 < data.length then acc ++ [data] else acc
        | none => acc) []
      if frontmatterSamples.length = 0 then
        { pattern := none, success := false
          message := "No valid frontmatter found in existing posts", suggestedTemplate := none }
      else
        let pattern := analyzeFrontmatterPatterns frontmatterSamples
        let template := generateTemplate clock pattern
        { pattern := some pattern, success := true
          message := "Analyzed " ++ toString frontmatterSamples.length
            ++ " posts, confidence: " ++ toString (jsRound (pattern.confidence * 100)) ++ "%"
          suggestedTemplate := some template }

/-- `SchemaFieldType` (schema-introspection.ts). -/
inductive SchemaFieldType where
  | string | number | boolean | date | array | object | image | unknown
deriving DecidableEq, Repr

/-- `SchemaField` (schema-introspection.ts). -/
structure SchemaField where
  name : String
  type : SchemaFieldType
  required : Bool
  defaultValue : Option JsValue
  description : Option String

/-- The runtime schema objects produced by `extractAndExecuteZodSchema`
(schema-introspection.ts 451-532): evaluating the `z.object({...})`
expression of a config source against the mock `z` yields exactly one
of these `_def` shapes, one constructor per mock constructor
(`z.string()`, `z.number()`, `z.boolean()`, `z.date()`, `z.array(t)`,
`z.coerce.date()` = `zeffects zdate`, `.optional()`, `.default(v)`,
`z.object(shape)`).  A config source that declares a given field list
thus reaches the introspection code below as the corresponding
`zobject` shape. -/
inductive ZodDef where
  | zstring
  | znumber
  | zboolean
  | zdate
  | zarray (elem : ZodDef)
  | zeffects (schema : ZodDef)
  | zoptional (innerType : ZodDef)
  | zdefault (value : JsValue) (innerType : ZodDef)
  | zobject (shape : List (String × ZodDef))

/-- `isZodFieldOptional` (schema-introspection.ts 613-625): a
`ZodOptional` wrapper, or a `_def` carrying a `defaultValue` thunk
(only `ZodDefault` defs do), makes the field optional. -/
def isZodFieldOptional (fieldDef : ZodDef) : Bool :=
  match fieldDef with
  | .zoptional _ => true
  | .zdefault _ _ => true
  | _ => false

/-- `getZodFieldType` (schema-introspection.ts 631-678): unwrap one
`ZodOptional`, then one `ZodDefault` (recording the default), then one
`ZodEffects`, then classify by the base type name; the `ZodObject` case
reports `image` when the shape has truthy `src` and `alt` members. -/
def getZodFieldType (fieldDef : ZodDef) : SchemaFieldType × Option JsValue :=
  let base1 := match fieldDef with | .zoptional innerType => innerType | d => d
  let unwrapped : Option JsValue × ZodDef :=
    match base1 with | .zdefault v innerType => (some v, innerType) | d => (none, d)
  let defaultValue := unwrapped.1
  let base2 := match unwrapped.2 with | .zeffects schema => schema | d => d
  match base2 with
  | .zstring => (.string, defaultValue)
  | .znumber => (.number, defaultValue)
  | .zboolean => (.boolean, defaultValue)
  | .zdate => (.date, defaultValue)
  | .zarray _ => (.array, defaultValue)
  | .zobject shape =>
    if shape.any (fun e => e.1 == "src") && shape.any (fun e => e.1 == "alt") then
      (.image, defaultValue)
    else (.object, defaultValue)
  | _ => (.unknown, defaultValue)

/-- `parseZodFieldDefinition` (schema-introspection.ts 588-607).  The
source returns `null` only when introspection throws, which no mock
`_def` shape can cause; the `Option` mirrors the signature. -/
def parseZodFieldDefinition (fieldName : String) (fieldDef : ZodDef) : Option SchemaField :=
  let isOptional := isZodFieldOptional fieldDef
  let classified := getZodFieldType fieldDef
  some { name := fieldName, type := classified.1, required := !isOptional
         defaultValue := classified.2, description := none }

/-- `extractFieldsFromZodShape` (schema-introspection.ts 571-582). -/
def extractFieldsFromZodShape (shape : List (String × ZodDef)) : List SchemaField :=
  shape.foldl (fun fields kv =>
    match parseZodFieldDefinition kv.1 kv.2 with
    | some field => fields ++ [field]
    | none => fields) []

/-- `SchemaAnalysis` (schema-introspection.ts). -/
structure SchemaAnalysis where
  fields : List SchemaField
  requiredFields : List SchemaField
  optionalFields : List SchemaField
  imageFields : List SchemaField
  success : Bool
  message : String

/-- The success path of `analyzeSchemaFromConfig`
(schema-introspection.ts 406-445) applied to an extracted object
schema shape: extract the fields and derive the filtered views. -/
def analyzeZodObjectSchema (shape : List (String × ZodDef)) : SchemaAnalysis :=
  let fields := extractFieldsFromZodShape shape
  { fields := fields
    requiredFields := fields.filter (fun f => f.required)
    optionalFields := fields.filter (fun f => !f.required)
    imageFields := fields.filter (fun f => f.type == .image)
    success := true
    message := "Successfully analyzed schema with " ++ toString fields.length
      ++ " fields using ZOD introspection" }

/-! ### Text-based fallback parsing (schema-introspection.ts 788-874)

The fallback parser works on one field-definition line at a time with
JS regexes; the few regexes involved are implemented directly on
character lists below. -/

/-- JS `\w`: `[A-Za-z0-9_]`. -/
def isWordChar (c : Char) : Bool := c.isAlphanum || c == '_'

/-- JS `String.prototype.trim`: strip whitespace from both ends. -/
def jsTrim (s : String) : String :=
  String.mk ((s.data.dropWhile Char.isWhitespace).reverse.dropWhile Char.isWhitespace).reverse

/-- Does `l` start with `sub`? -/
def charsStartWith : List Char → List Char → Bool
  | [], _ => true
  | _ :: _, [] => false
  | a :: as, b :: bs => a == b && charsStartWith as bs

/-- Does `sub` occur anywhere in `l` (JS `String.prototype.includes`)? -/
def charsContain (sub : List Char) : List Char → Bool
  | [] => charsStartWith sub []
  | c :: rest => charsStartWith sub (c :: rest) || charsContain sub rest

/-- `s.includes(sub)`. -/
def strIncludes (s sub : String) : Bool := charsContain sub.data s.data

/-- Remove the first occurrence of the literal `sub`
(`s.replace(<literal>, '')`). -/
def removeFirstOcc (sub : List Char) : List Char → List Char
  | [] => []
  | c :: rest =>
    if charsStartWith sub (c :: rest) then (c :: rest).drop sub.length
    else c :: removeFirstOcc sub rest

/-- Try `\.default\(([^)]*)\)` at the head of `l`: on success return
the captured argument characters and the remainder after the closing
parenthesis. -/
def matchDefaultAt (l : List Char) : Option (List Char × List Char) :=
  if charsStartWith ".default(".data l then
    let afterOpen := l.drop ".default(".length
    let args := afterOpen.takeWhile (fun c => c ≠ ')')
    match afterOpen.dropWhile (fun c => c ≠ ')') with
    | ')' :: tail => some (args, tail)
    | _ => none
  else none

/-- `definition.replace(/\.default\([^)]*\)/, '')`: drop the first
default-call occurrence. -/
def removeDefaultCall : List Char → List Char
  | [] => []
  | c :: rest =>
    match matchDefaultAt (c :: rest) with
    | some (_, tail) => tail
    | none => c :: removeDefaultCall rest

/-- `definition.match(/\.default\(([^)]+)\)/)`: the first occurrence
with a non-empty argument (an empty `()` fails the `+` and the scan
moves on by one character, as the regex engine does). -/
def findDefaultArg : List Char → Option (List Char)
  | [] => none
  | c :: rest =>
    match matchDefaultAt (c :: rest) with
    | some (args, _) => if args.length = 0 then findDefaultArg rest else some args
    | none => findDefaultArg rest

/-- `cleanLine.match(/^(\w+):\s*(.+)$/)` on an already-trimmed line
(which `parseSchemaField` guarantees): the leading word characters,
the colon, then the rest with leading whitespace stripped; a line
break inside the definition makes the dot-anchored match fail. -/
def fieldNameMatch (s : String) : Option (String × String) :=
  let cs := s.data
  let name := cs.takeWhile isWordChar
  let rest := cs.drop name.length
  if name.isEmpty then none
  else
    match rest with
    | ':' :: r =>
      if r.contains '\n' then none
      else
        let tail := r.dropWhile Char.isWhitespace
        if tail.isEmpty then none
        else some (String.mk name, String.mk tail)
    | _ => none

/-- `fieldLine.replace(/,$/, '')`. -/
def removeTrailingComma (s : String) : String :=
  match s.data.reverse with
  | ',' :: rest => String.mk rest.reverse
  | _ => s

/-- `parseInt` on an all-digit string. -/
def parseDigits (cs : List Char) : ℚ :=
  (cs.foldl (fun n c => 10 * n + (c.toNat - '0'.toNat)) 0 : ℕ)

/-- One attempt of `extractFieldDescription`'s regex
`/\/\/\s*(.+)$/` at the current position, with the source's `.trim()`
of the capture applied. -/
def descHere : List Char → Option String
  | '/' :: '/' :: tail =>
    if tail.contains '\n' || tail.isEmpty then none
    else some (jsTrim (String.mk (tail.dropWhile Char.isWhitespace)))
  | _ => none

/-- The regex scan: try the pattern at each position left to right. -/
def descScan : List Char → Option String
  | [] => none
  | c :: rest =>
    match descHere (c :: rest) with
    | some d => some d
    | none => descScan rest

/-- `extractFieldDescription` (schema-introspection.ts 871-874). -/
def extractFieldDescription (fieldLine : String) : Option String :=
  descScan fieldLine.data

/-- `parseFieldType` (schema-introspection.ts 817-866).  `JSON.parse`
is the host's builtin, passed in as `jsonParse` (`none` models a
throw, which the source catches by keeping the raw argument string). -/
def parseFieldType (jsonParse : String → Option JsValue) (definition : String) :
    SchemaFieldType × Option JsValue :=
  let baseDefinition :=
    String.mk (removeDefaultCall (removeFirstOcc ".optional()".data definition.data))
  let defaultValue : Option JsValue :=
    match findDefaultArg definition.data with
    | none => none
    | some argChars =>
      let defaultStr := String.mk argChars
      if defaultStr == "true" || defaultStr == "false" then
        some (.bool (defaultStr == "true"))
      else if argChars.all Char.isDigit then
        some (.num (parseDigits argChars))
      else if (match argChars with
               | '[' :: _ => argChars.getLast? == some ']' && !argChars.contains '\n'
               | _ => false) then
        match jsonParse defaultStr with
        | some v => some v
        | none => some (.str defaultStr)
      else if (match argChars with | '"' :: _ => argChars.getLast? == some '"' | _ => false) then
        some (.str (String.mk ((argChars.drop 1).dropLast)))
      else none
  if strIncludes baseDefinition "z.string()" then (.string, defaultValue)
  else if strIncludes baseDefinition "z.number()" then (.number, defaultValue)
  else if strIncludes baseDefinition "z.boolean()" then (.boolean, defaultValue)
  else if strIncludes baseDefinition "z.date()" || strIncludes baseDefinition "z.coerce.date()" then
    (.date, defaultValue)
  else if strIncludes baseDefinition "z.array(" then (.array, defaultValue)
  else if strIncludes baseDefinition "image()" then (.image, defaultValue)
  else if strIncludes baseDefinition "z.object(" then
    if strIncludes baseDefinition "src:" && strIncludes baseDefinition "alt:" then
      (.image, defaultValue)
    else (.object, defaultValue)
  else (.unknown, defaultValue)

/-- `parseSchemaField` (schema-introspection.ts 788-812), the
text-parsing fallback: field name from the line, `required` from the
presence of `.optional()` alone, type and default from
`parseFieldType`. -/
def parseSchemaField (jsonParse : String → Option JsValue) (fieldLine : String) :
    Option SchemaField :=
  let cleanLine := jsTrim (removeTrailingComma fieldLine)
  match fieldNameMatch cleanLine with
  | none => none
  | some matched =>
    let fieldName := matched.1
    let fieldDefinition := matched.2
    let isOptional := strIncludes fieldDefinition ".optional()"
    let classified := parseFieldType jsonParse fieldDefinition
    some { name := fieldName, type := classified.1, required := !isOptional
           defaultValue := classified.2
           description := extractFieldDescription fieldLine }

/-! ### Conflict resolution (index.ts 261-328) -/

/-- `FrameworkInfo` (framework-detection.ts); only the fields the
conflict-resolution policy reads are carried. -/
structure FrameworkInfo where
  name : String
  version : Option String
  confidence : ℚ
  detectedBy : List String

/-- `FrameworkDetectionResult` (framework-detection.ts); the optional
`astroCollections` list is not consulted by the policy under
verification and is omitted. -/
structure FrameworkDetectionResult where
  frameworks : List FrameworkInfo
  primary : Option FrameworkInfo
  contentDir : String
  suggestedTemplate : Option (List (String × JsValue))
  schemaAnalysis : Option SchemaAnalysis

/-- `detectSchemaConflicts` (index.ts 300-328): an empty-object value
for a field the schema types as an optional `image` or `object` is a
conflict.  (`schemaAnalysis.fields` is always present in the model, so
the JS null-guard has no counterpart.) -/
def detectSchemaConflicts (patternTemplate : List (String × JsValue))
    (schemaAnalysis : SchemaAnalysis) : Bool :=
  patternTemplate.any (fun kv =>
    match schemaAnalysis.fields.find? (fun f => f.name == kv.1) with
    | none => false
    | some schemaField =>
      (schemaField.type == .image && !schemaField.required && isEmptyObjectLike kv.2)
        || (schemaField.type == .object && !schemaField.required && isEmptyObjectLike kv.2))

/-- `shouldPreferFrameworkOverPattern` (index.ts 261-295).  JS number
truthiness on the two confidences is `≠ 0`. -/
def shouldPreferFrameworkOverPattern (patternDetection : DetectionResult)
    (frameworkDetection : FrameworkDetectionResult) : Bool :=
  match frameworkDetection.primary with
  | none => false
  | some primary =>
    if !patternDetection.success || patternDetection.suggestedTemplate.isNone then true
    else
      let hasSchemaConflicts :=
        match frameworkDetection.schemaAnalysis, patternDetection.suggestedTemplate with
        | some sa, some tmpl => sa.success && detectSchemaConflicts tmpl sa
        | _, _ => false
      if hasSchemaConflicts then true
      else
        match patternDetection.pattern with
        | some pat =>
          if pat.confidence != 0 && primary.confidence != 0 then
            decide (pat.confidence < 7/10) && decide (8/10 < primary.confidence)
          else false
        | none => false

/-- Total recorded occurrence count for field name `k` in an
accumulating field map (a specification helper for the proofs below,
not part of the embedding). -/
def countFor (m : List FieldPattern) (k : String) : ℚ :=
  ((m.filter (fun p => p.fieldName == k)).map FieldPattern.frequency).sum

/-! ### Helper lemmas -/

@[simp] lemma recordOccurrence_fieldName (p : FieldPattern) (v : JsValue) :
    (recordOccurrence p v).fieldName = p.fieldName := rfl

lemma analyzeFrontmatterPatterns_confidence (samples : List Sample) :
    (analyzeFrontmatterPatterns samples).confidence =
      calculateConfidence (analyzeFrontmatterPatterns samples).commonFields
        samples.length := rfl

lemma analyzeFrontmatterPatterns_totalPosts (samples : List Sample) :
    (analyzeFrontmatterPatterns samples).totalPosts = samples.length := rfl

lemma calculateConfidence_low (fields : List FieldPattern) (n : ℕ) (h : n < 2) :
    calculateConfidence fields n = 1/2 := by
  simp [calculateConfidence, h]

lemma calculateConfidence_eq (fields : List FieldPattern) (n : ℕ) (h2 : 2 ≤ n) :
    calculateConfidence fields n =
      min 1 ((3:ℚ)/5
        + (if ∃ f ∈ fields, f.fieldName = "title" ∧ (4:ℚ)/5 ≤ f.frequency
           then (1:ℚ)/5 else 0)
        + (if ∃ f ∈ fields,
              (f.fieldName = "date" ∨ f.fieldName = "publishedAt" ∨ f.fieldName = "publishDate")
                ∧ (4:ℚ)/5 ≤ f.frequency
           then (1:ℚ)/5 else 0)
        + (if 3 ≤ (fields.filter fun f => decide ((4:ℚ)/5 ≤ f.frequency)).length
           then (1:ℚ)/10 else 0)
        + (if 5 ≤ n then (1:ℚ)/10 else 0)) := by
  have hn : ¬ n < 2 := not_lt.mpr h2
  have hTitle : ((fields.any fun f => f.fieldName == "title" && decide ((4:ℚ)/5 ≤ f.frequency)) = true)
      ↔ (∃ f ∈ fields, f.fieldName = "title" ∧ (4:ℚ)/5 ≤ f.frequency) := by
    simp [List.any_eq_true]
  have hDate : ((fields.any fun f =>
        (f.fieldName == "date" || f.fieldName == "publishedAt" || f.fieldName == "publishDate")
          && decide ((4:ℚ)/5 ≤ f.frequency)) = true)
      ↔ (∃ f ∈ fields,
          (f.fieldName = "date" ∨ f.fieldName = "publishedAt" ∨ f.fieldName = "publishDate")
            ∧ (4:ℚ)/5 ≤ f.frequency) := by
    simp [List.any_eq_true, or_assoc]
  simp only [calculateConfidence, hn, if_false, hTitle, hDate]
  by_cases h1 : ∃ f ∈ fields, f.fieldName = "title" ∧ (4:ℚ)/5 ≤ f.frequency
    <;> by_cases hd : ∃ f ∈ fields,
          (f.fieldName = "date" ∨ f.fieldName = "publishedAt" ∨ f.fieldName = "publishDate")
            ∧ (4:ℚ)/5 ≤ f.frequency
    <;> by_cases h3 : 3 ≤ (fields.filter fun f => decide ((4:ℚ)/5 ≤ f.frequency)).length
    <;> by_cases h4 : 5 ≤ n
    <;> simp [h1, hd, h3, h4, min_comm]

lemma calculateConfidence_ge_half (fields : List FieldPattern) (n : ℕ) :
    (1:ℚ)/2 ≤ calculateConfidence fields n := by
  by_cases h : n < 2
  · rw [calculateConfidence_low fields n h]
  · rw [calculateConfidence_eq fields n (not_lt.mp h)]
    refine le_min (by norm_num) ?_
    split_ifs <;> norm_num

lemma calculateConfidence_le_one (fields : List FieldPattern) (n : ℕ) :
    calculateConfidence fields n ≤ 1 := by
  by_cases h : n < 2
  · rw [calculateConfidence_low fields n h]; norm_num
  · rw [calculateConfidence_eq fields n (not_lt.mp h)]
    exact min_le_left _ _

lemma insertOccurrence_map_fieldName (m : List FieldPattern) (name : String) (v : JsValue) :
    (insertOccurrence m name v).map FieldPattern.fieldName =
      if name ∈ m.map FieldPattern.fieldName then m.map FieldPattern.fieldName
      else m.map FieldPattern.fieldName ++ [name] := by
  induction m with
  | nil => simp [insertOccurrence]
  | cons p rest ih =>
    simp only [insertOccurrence]
    by_cases h : p.fieldName = name
    · simp [h]
    · have h2 : ¬ name = p.fieldName := fun hh => h hh.symm
      by_cases hm : name ∈ rest.map FieldPattern.fieldName
      · simp [h, h2, hm, ih]
      · simp [h, h2, hm, ih]

lemma insertOccurrence_nodup {m : List FieldPattern} (name : String) (v : JsValue)
    (h : (m.map FieldPattern.fieldName).Nodup) :
    ((insertOccurrence m name v).map FieldPattern.fieldName).Nodup := by
  rw [insertOccurrence_map_fieldName]
  by_cases hm : name ∈ m.map FieldPattern.fieldName
  · simpa [hm] using h
  · simp [hm, List.nodup_append, h]

lemma accumSample_nodup (s : Sample) :
    ∀ m : List FieldPattern, (m.map FieldPattern.fieldName).Nodup →
      ((accumSample m s).map FieldPattern.fieldName).Nodup := by
  induction s with
  | nil => intro m h; exact h
  | cons kv rest ih =>
    intro m h
    exact ih _ (insertOccurrence_nodup kv.1 kv.2 h)

lemma accumSamples_nodup (samples : List Sample) :
    ((accumSamples samples).map FieldPattern.fieldName).Nodup := by
  suffices h : ∀ m : List FieldPattern, (m.map FieldPattern.fieldName).Nodup →
      ((samples.foldl accumSample m).map FieldPattern.fieldName).Nodup from h [] (by simp)
  induction samples with
  | nil => intro m h; exact h
  | cons s rest ih => intro m h; exact ih _ (accumSample_nodup s m h)

lemma commonFields_map_fieldName (samples : List Sample) :
    (analyzeFrontmatterPatterns samples).commonFields.map FieldPattern.fieldName =
      (accumSamples samples).map FieldPattern.fieldName := by
  simp only [analyzeFrontmatterPatterns, List.map_map]
  rfl

lemma commonFields_nodup (samples : List Sample) :
    ((analyzeFrontmatterPatterns samples).commonFields.map FieldPattern.fieldName).Nodup := by
  rw [commonFields_map_fieldName]
  exact accumSamples_nodup samples

lemma analyze_requiredFields (samples : List Sample) :
    (analyzeFrontmatterPatterns samples).requiredFields =
      ((analyzeFrontmatterPatterns samples).commonFields.filter
        (fun f => decide ((4:ℚ)/5 ≤ f.frequency))).map FieldPattern.fieldName := rfl

lemma analyze_optionalFields (samples : List Sample) :
    (analyzeFrontmatterPatterns samples).optionalFields =
      ((analyzeFrontmatterPatterns samples).commonFields.filter
        (fun f => !decide ((4:ℚ)/5 ≤ f.frequency) && decide ((1:ℚ)/5 ≤ f.frequency))).map
        FieldPattern.fieldName := rfl

lemma analyze_rareFields (samples : List Sample) :
    (analyzeFrontmatterPatterns samples).rareFields =
      ((analyzeFrontmatterPatterns samples).commonFields.filter
        (fun f => !decide ((4:ℚ)/5 ≤ f.frequency) && !decide ((1:ℚ)/5 ≤ f.frequency))).map
        FieldPattern.fieldName := rfl

lemma countFor_insertOccurrence (m : List FieldPattern) (name : String) (v : JsValue)
    (k : String) :
    countFor (insertOccurrence m name v) k =
      countFor m k + if k = name then 1 else 0 := by
  induction m with
  | nil =>
    by_cases h : k = name
    · subst h
      simp [insertOccurrence, recordOccurrence, countFor]
    · have hb : (name == k) = false := by
        simp only [beq_eq_false_iff_ne, ne_eq]
        exact fun hh => h hh.symm
      simp [insertOccurrence, recordOccurrence, countFor, hb, h]
  | cons p rest ih =>
    by_cases hp : p.fieldName = name
    · by_cases hk : k = name
      · subst hk
        have hb : (p.fieldName == k) = true := by simp [hp]
        simp [insertOccurrence, hp, countFor, recordOccurrence, List.filter_cons, hb]
        ring
      · have hb1 : (name == k) = false := by
          simp only [beq_eq_false_iff_ne, ne_eq]
          exact fun hh => hk hh.symm
        have hb2 : (p.fieldName == k) = false := by
          simp only [beq_eq_false_iff_ne, ne_eq]
          exact fun hh => hk ((hp.symm.trans hh).symm)
        simp [insertOccurrence, hp, countFor, recordOccurrence, List.filter_cons, hb1, hb2, hk]
    · by_cases hpk : p.fieldName = k
      · simp only [insertOccurrence, if_neg hp, countFor, List.filter_cons] at ih ⊢
        simp [hpk, ih, countFor]
        ring
      · simp only [insertOccurrence, if_neg hp, countFor, List.filter_cons] at ih ⊢
        simp [hpk, ih, countFor]

lemma countFor_accumSample (s : Sample) :
    ∀ m : List FieldPattern, ∀ k : String,
      countFor (accumSample m s) k = countFor m k + ((s.map Prod.fst).count k : ℚ) := by
  induction s with
  | nil => intro m k; simp [accumSample]
  | cons kv rest ih =>
    intro m k
    have hstep : accumSample m (kv :: rest) = accumSample (insertOccurrence m kv.1 kv.2) rest := rfl
    rw [hstep, ih, countFor_insertOccurrence]
    by_cases h : k = kv.1 <;> simp [List.count_cons, h, eq_comm] <;> ring

lemma countFor_foldl (K : List String) (k : String) :
    ∀ samples : List Sample, (∀ s ∈ samples, s.map Prod.fst = K) →
      ∀ m : List FieldPattern,
        countFor (samples.foldl accumSample m) k
          = countFor m k + (samples.length : ℚ) * ((K.count k : ℕ) : ℚ) := by
  intro samples
  induction samples with
  | nil => intro _ m; simp
  | cons s rest ih =>
    intro hc m
    have hs : s.map Prod.fst = K := hc s (by simp)
    have hrest : ∀ t ∈ rest, t.map Prod.fst = K := fun t ht => hc t (by simp [ht])
    have hstep : (s :: rest).foldl accumSample m = rest.foldl accumSample (accumSample m s) := rfl
    rw [hstep, ih hrest, countFor_accumSample, hs]
    simp only [List.length_cons]
    push_cast
    ring

lemma countFor_accumSamples (K : List String) (samples : List Sample)
    (hcons : ∀ s ∈ samples, s.map Prod.fst = K) (k : String) :
    countFor (accumSamples samples) k = (samples.length : ℚ) * ((K.count k : ℕ) : ℚ) := by
  simpa [countFor] using countFor_foldl K k samples hcons []

lemma frequency_eq_countFor (m : List FieldPattern)
    (hnd : (m.map FieldPattern.fieldName).Nodup) :
    ∀ fp ∈ m, fp.frequency = countFor m fp.fieldName := by
  induction m with
  | nil => intro fp h; cases h
  | cons p rest ih =>
    intro fp hfp
    have hnotin : p.fieldName ∉ rest.map FieldPattern.fieldName := (List.nodup_cons.mp hnd).1
    rcases List.mem_cons.mp hfp with rfl | hmem
    · have hzero : countFor rest fp.fieldName = 0 := by
        have : rest.filter (fun q => q.fieldName == fp.fieldName) = [] := by
          rw [List.filter_eq_nil]
          intro q hq hbeq
          exact hnotin (by
            have : q.fieldName = fp.fieldName := by simpa using hbeq
            exact this ▸ List.mem_map_of_mem FieldPattern.fieldName hq)
        simp [countFor, this]
      simp [countFor, List.filter_cons, hzero]
      simpa [countFor] using hzero
    · have hne : ¬ p.fieldName = fp.fieldName := by
        intro hh
        exact hnotin (hh ▸ List.mem_map_of_mem FieldPattern.fieldName hmem)
      rw [ih (List.nodup_cons.mp hnd).2 fp hmem]
      simp [countFor, List.filter_cons, hne]

lemma keys_accumSample_of_subset (s : Sample) :
    ∀ m : List FieldPattern, (∀ x ∈ s.map Prod.fst, x ∈ m.map FieldPattern.fieldName) →
      (accumSample m s).map FieldPattern.fieldName = m.map FieldPattern.fieldName := by
  induction s with
  | nil => intro m _; rfl
  | cons kv rest ih =>
    intro m hsub
    have hmem : kv.1 ∈ m.map FieldPattern.fieldName := hsub kv.1 (by simp)
    have hstep : accumSample m (kv :: rest) = accumSample (insertOccurrence m kv.1 kv.2) rest := rfl
    have hkeys : (insertOccurrence m kv.1 kv.2).map FieldPattern.fieldName
        = m.map FieldPattern.fieldName := by
      rw [insertOccurrence_map_fieldName, if_pos hmem]
    rw [hstep, ih _ (by rw [hkeys]; intro x hx; exact hsub x (by simp [hx]))]
    exact hkeys

lemma keys_accumSample_fresh (s : Sample) :
    ∀ m : List FieldPattern, (s.map Prod.fst).Nodup →
      (∀ x ∈ s.map Prod.fst, x ∉ m.map FieldPattern.fieldName) →
      (accumSample m s).map FieldPattern.fieldName
        = m.map FieldPattern.fieldName ++ s.map Prod.fst := by
  induction s with
  | nil => intro m _ _; simp [accumSample]
  | cons kv rest ih =>
    intro m hnd hfresh
    have hnotin : kv.1 ∉ m.map FieldPattern.fieldName := hfresh kv.1 (by simp)
    have hstep : accumSample m (kv :: rest) = accumSample (insertOccurrence m kv.1 kv.2) rest := rfl
    have hkeys : (insertOccurrence m kv.1 kv.2).map FieldPattern.fieldName
        = m.map FieldPattern.fieldName ++ [kv.1] := by
      rw [insertOccurrence_map_fieldName, if_neg hnotin]
    have hndr : (rest.map Prod.fst).Nodup := by
      simpa using (List.nodup_cons.mp (by simpa using hnd)).2
    have hfreshr : ∀ x ∈ rest.map Prod.fst,
        x ∉ (insertOccurrence m kv.1 kv.2).map FieldPattern.fieldName := by
      intro x hx
      rw [hkeys]
      simp only [List.mem_append, List.mem_singleton]
      rintro (hmx | rfl)
      · exact hfresh x (by simp [hx]) hmx
      · exact (List.nodup_cons.mp (by simpa using hnd)).1 hx
    rw [hstep, ih _ hndr hfreshr, hkeys]
    simp

lemma keys_accumSamples_consistent (K : List String) (hK : K.Nodup) :
    ∀ samples : List Sample, (∀ s ∈ samples, s.map Prod.fst = K) → samples ≠ [] →
      (accumSamples samples).map FieldPattern.fieldName = K := by
  intro samples hcons hne
  match samples with
  | [] => exact absurd rfl hne
  | s0 :: rest =>
    have hs0 : s0.map Prod.fst = K := hcons s0 (by simp)
    have h0 : (accumSample [] s0).map FieldPattern.fieldName = K := by
      rw [keys_accumSample_fresh s0 [] (hs0 ▸ hK) (by simp), hs0]
      simp
    have hrest : ∀ t ∈ rest, t.map Prod.fst = K := fun t ht => hcons t (by simp [ht])
    have : ∀ (rest : List Sample), (∀ t ∈ rest, t.map Prod.fst = K) →
        ∀ m : List FieldPattern, m.map FieldPattern.fieldName = K →
        (rest.foldl accumSample m).map FieldPattern.fieldName = K := by
      intro rest
      induction rest with
      | nil => intro _ m hm; exact hm
      | cons t ts ih =>
        intro hc m hm
        have ht : t.map Prod.fst = K := hc t (by simp)
        have hstep : (t :: ts).foldl accumSample m = ts.foldl accumSample (accumSample m t) := rfl
        rw [hstep]
        exact ih (fun u hu => hc u (by simp [hu])) _
          (by rw [keys_accumSample_of_subset t m (by rw [ht, hm]; intro x hx; exact hx)]; exact hm)
    have hfold : accumSamples (s0 :: rest) = rest.foldl accumSample (accumSample [] s0) := rfl
    rw [hfold]
    exact this rest hrest _ h0

lemma mem_keys_iff (m : List FieldPattern) (k : String) :
    k ∈ m.map FieldPattern.fieldName ↔ ∃ f ∈ m, f.fieldName = k := by
  simp [List.mem_map]

lemma consistent_frequency (K : List String) (hK : K.Nodup)
    (samples : List Sample) (hcons : ∀ s ∈ samples, s.map Prod.fst = K)
    (hne : samples ≠ []) :
    ∀ f ∈ (analyzeFrontmatterPatterns samples).commonFields, 1 ≤ f.frequency := by
  intro f hf
  have hkeys : (accumSamples samples).map FieldPattern.fieldName = K :=
    keys_accumSamples_consistent K hK samples hcons hne
  have hnd : ((accumSamples samples).map FieldPattern.fieldName).Nodup := by
    rw [hkeys]; exact hK
  obtain ⟨p, hp, hpf⟩ : ∃ p ∈ accumSamples samples,
      ({ p with frequency := p.frequency / (samples.length : ℚ) } : FieldPattern) = f := by
    simpa [analyzeFrontmatterPatterns, List.mem_map] using hf
  have hfreq : p.frequency = countFor (accumSamples samples) p.fieldName :=
    frequency_eq_countFor _ hnd p hp
  have hcount : countFor (accumSamples samples) p.fieldName
      = (samples.length : ℚ) * ((K.count p.fieldName : ℕ) : ℚ) :=
    countFor_accumSamples K samples hcons p.fieldName
  have hmemK : p.fieldName ∈ K := by
    rw [← hkeys]; exact List.mem_map_of_mem FieldPattern.fieldName hp
  have hcpos : 1 ≤ K.count p.fieldName := List.count_pos_iff_mem.mpr hmemK
  have hn : (0:ℚ) < (samples.length : ℚ) := by
    have : 0 < samples.length := List.length_pos.mpr hne
    exact_mod_cast this
  have hval : f.frequency = ((K.count p.fieldName : ℕ) : ℚ) := by
    rw [← hpf]
    show p.frequency / (samples.length : ℚ) = _
    rw [hfreq, hcount, mul_comm, mul_div_assoc, div_self (ne_of_gt hn), mul_one]
  rw [hval]
  exact_mod_cast hcpos

lemma consistent_confidence (K : List String) (hK : K.Nodup)
    (samples : List Sample) (hcons : ∀ s ∈ samples, s.map Prod.fst = K)
    (h2 : 2 ≤ samples.length) :
    (analyzeFrontmatterPatterns samples).confidence =
      min 1 ((3:ℚ)/5
        + (if "title" ∈ K then (1:ℚ)/5 else 0)
        + (if "date" ∈ K ∨ "publishedAt" ∈ K ∨ "publishDate" ∈ K then (1:ℚ)/5 else 0)
        + (if 3 ≤ K.length then (1:ℚ)/10 else 0)
        + (if 5 ≤ samples.length then (1:ℚ)/10 else 0)) := by
  have hne : samples ≠ [] := by
    intro h; rw [h] at h2; simp at h2
  have hfreq1 := consistent_frequency K hK samples hcons hne
  have hkeysC : (analyzeFrontmatterPatterns samples).commonFields.map FieldPattern.fieldName
      = K := by
    rw [commonFields_map_fieldName]
    exact keys_accumSamples_consistent K hK samples hcons hne
  have hmem : ∀ x, (∃ f ∈ (analyzeFrontmatterPatterns samples).commonFields,
      f.fieldName = x ∧ (4:ℚ)/5 ≤ f.frequency) ↔ x ∈ K := by
    intro x
    constructor
    · rintro ⟨f, hf, rfl, _⟩
      rw [← hkeysC]
      exact List.mem_map_of_mem FieldPattern.fieldName hf
    · intro hx
      rw [← hkeysC] at hx
      obtain ⟨f, hf, rfl⟩ := List.mem_map.mp hx
      exact ⟨f, hf, rfl, le_trans (by norm_num) (hfreq1 f hf)⟩
  have ht : (∃ f ∈ (analyzeFrontmatterPatterns samples).commonFields,
      f.fieldName = "title" ∧ (4:ℚ)/5 ≤ f.frequency) ↔ "title" ∈ K := hmem "title"
  have hd : (∃ f ∈ (analyzeFrontmatterPatterns samples).commonFields,
      (f.fieldName = "date" ∨ f.fieldName = "publishedAt" ∨ f.fieldName = "publishDate")
        ∧ (4:ℚ)/5 ≤ f.frequency) ↔
      ("date" ∈ K ∨ "publishedAt" ∈ K ∨ "publishDate" ∈ K) := by
    constructor
    · rintro ⟨f, hf, hcase, _⟩
      have hmemf : f.fieldName ∈ K := by
        rw [← hkeysC]; exact List.mem_map_of_mem FieldPattern.fieldName hf
      rcases hcase with h | h | h
      · exact Or.inl (h ▸ hmemf)
      · exact Or.inr (Or.inl (h ▸ hmemf))
      · exact Or.inr (Or.inr (h ▸ hmemf))
    · rintro (hx | hx | hx)
      · obtain ⟨f, hf, hfn, hge⟩ := (hmem "date").mpr hx
        exact ⟨f, hf, Or.inl hfn, hge⟩
      · obtain ⟨f, hf, hfn, hge⟩ := (hmem "publishedAt").mpr hx
        exact ⟨f, hf, Or.inr (Or.inl hfn), hge⟩
      · obtain ⟨f, hf, hfn, hge⟩ := (hmem "publishDate").mpr hx
        exact ⟨f, hf, Or.inr (Or.inr hfn), hge⟩
  have hlen : ((analyzeFrontmatterPatterns samples).commonFields.filter
      (fun f => decide ((4:ℚ)/5 ≤ f.frequency))).length = K.length := by
    have hall : (analyzeFrontmatterPatterns samples).commonFields.filter
        (fun f => decide ((4:ℚ)/5 ≤ f.frequency))
        = (analyzeFrontmatterPatterns samples).commonFields := by
      rw [List.filter_eq_self]
      intro f hf
      simp [le_trans (by norm_num : (4:ℚ)/5 ≤ 1) (hfreq1 f hf)]
    rw [hall, ← hkeysC, List.length_map]
  rw [analyzeFrontmatterPatterns_confidence, calculateConfidence_eq _ _ h2]
  simp only [ht, hd, hlen]

/-! ### Claims -/

/-- Claim C3: for every non-empty sample list, every field at
frequency ≥ 0.8 lands in `requiredFields`, every field in [0.2, 0.8)
in `optionalFields`, every field below 0.2 in `rareFields`, and no
name appears in more than one of the three lists. -/
theorem frequency_partition (samples : List Sample) (hne : samples ≠ []) :
    (∀ f ∈ (analyzeFrontmatterPatterns samples).commonFields,
        ((4:ℚ)/5 ≤ f.frequency →
          f.fieldName ∈ (analyzeFrontmatterPatterns samples).requiredFields) ∧
        ((1:ℚ)/5 ≤ f.frequency ∧ f.frequency < 4/5 →
          f.fieldName ∈ (analyzeFrontmatterPatterns samples).optionalFields) ∧
        (f.frequency < 1/5 →
          f.fieldName ∈ (analyzeFrontmatterPatterns samples).rareFields)) ∧
    (∀ name, ¬(name ∈ (analyzeFrontmatterPatterns samples).requiredFields ∧
        name ∈ (analyzeFrontmatterPatterns samples).optionalFields)) ∧
    (∀ name, ¬(name ∈ (analyzeFrontmatterPatterns samples).requiredFields ∧
        name ∈ (analyzeFrontmatterPatterns samples).rareFields)) ∧
    (∀ name, ¬(name ∈ (analyzeFrontmatterPatterns samples).optionalFields ∧
        name ∈ (analyzeFrontmatterPatterns samples).rareFields)) := by
  have hnd := commonFields_nodup samples
  rw [analyze_requiredFields, analyze_optionalFields, analyze_rareFields]
  refine ⟨?_, ?_, ?_, ?_⟩
  · intro f hf
    refine ⟨fun hfreq => ?_, fun hfreq => ?_, fun hfreq => ?_⟩
    · exact List.mem_map_of_mem _ (List.mem_filter.mpr ⟨hf, by simp [hfreq]⟩)
    · refine List.mem_map_of_mem _ (List.mem_filter.mpr ⟨hf, ?_⟩)
      simp only [Bool.and_eq_true, Bool.not_eq_true', decide_eq_false_iff_not,
        decide_eq_true_eq]
      exact ⟨not_le.mpr hfreq.2, hfreq.1⟩
    · refine List.mem_map_of_mem _ (List.mem_filter.mpr ⟨hf, ?_⟩)
      simp only [Bool.and_eq_true, Bool.not_eq_true', decide_eq_false_iff_not]
      exact ⟨not_le.mpr (lt_trans hfreq (by norm_num)), not_le.mpr hfreq⟩
  · rintro name ⟨h1, h2⟩
    obtain ⟨f1, hf1, hname1⟩ := List.mem_map.mp h1
    obtain ⟨f2, hf2, hname2⟩ := List.mem_map.mp h2
    have hf12 : f1 = f2 := List.inj_on_of_nodup_map hnd (List.mem_filter.mp hf1).1
      (List.mem_filter.mp hf2).1 (hname1.trans hname2.symm)
    have hp1 := (List.mem_filter.mp hf1).2
    have hp2 := (List.mem_filter.mp hf2).2
    rw [hf12] at hp1
    simp at hp1 hp2
    linarith [hp1, hp2.1]
  · rintro name ⟨h1, h2⟩
    obtain ⟨f1, hf1, hname1⟩ := List.mem_map.mp h1
    obtain ⟨f2, hf2, hname2⟩ := List.mem_map.mp h2
    have hf12 : f1 = f2 := List.inj_on_of_nodup_map hnd (List.mem_filter.mp hf1).1
      (List.mem_filter.mp hf2).1 (hname1.trans hname2.symm)
    have hp1 := (List.mem_filter.mp hf1).2
    have hp2 := (List.mem_filter.mp hf2).2
    rw [hf12] at hp1
    simp at hp1 hp2
    linarith [hp1, hp2.1]
  · rintro name ⟨h1, h2⟩
    obtain ⟨f1, hf1, hname1⟩ := List.mem_map.mp h1
    obtain ⟨f2, hf2, hname2⟩ := List.mem_map.mp h2
    have hf12 : f1 = f2 := List.inj_on_of_nodup_map hnd (List.mem_filter.mp hf1).1
      (List.mem_filter.mp hf2).1 (hname1.trans hname2.symm)
    have hp1 := (List.mem_filter.mp hf1).2
    have hp2 := (List.mem_filter.mp hf2).2
    rw [hf12] at hp1
    simp at hp1 hp2
    linarith [hp1.2, hp2.2]

/-- Witness for C3: on two concrete samples, `title` (frequency 1) is
required, `tags` (frequency 1/2) is optional, and the tiers do not
overlap on `title`. -/
theorem frequency_partition_witness :
    "title" ∈ (analyzeFrontmatterPatterns
        [[("title", .str "a"), ("tags", .arr [])], [("title", .str "b")]]).requiredFields ∧
    "tags" ∈ (analyzeFrontmatterPatterns
        [[("title", .str "a"), ("tags", .arr [])], [("title", .str "b")]]).optionalFields ∧
    ¬("title" ∈ (analyzeFrontmatterPatterns
          [[("title", .str "a"), ("tags", .arr [])], [("title", .str "b")]]).requiredFields ∧
      "title" ∈ (analyzeFrontmatterPatterns
          [[("title", .str "a"), ("tags", .arr [])], [("title", .str "b")]]).optionalFields) := by
  have h := frequency_partition
    [[("title", .str "a"), ("tags", .arr [])], [("title", .str "b")]]
    (List.cons_ne_nil _ _)
  refine ⟨?_, ?_, h.2.1 "title"⟩
  · have hf : (⟨"title", 1, ["string"], [.str "a", .str "b"]⟩ : FieldPattern) ∈
        (analyzeFrontmatterPatterns
          [[("title", .str "a"), ("tags", .arr [])], [("title", .str "b")]]).commonFields := by
      norm_num +decide [analyzeFrontmatterPatterns, accumSamples, accumSample,
        insertOccurrence, recordOccurrence, valueTypeOf, jsTypeof]
    exact (h.1 _ hf).1 (by norm_num)
  · have hf : (⟨"tags", 1/2, ["array"], [.arr []]⟩ : FieldPattern) ∈
        (analyzeFrontmatterPatterns
          [[("title", .str "a"), ("tags", .arr [])], [("title", .str "b")]]).commonFields := by
      norm_num +decide [analyzeFrontmatterPatterns, accumSamples, accumSample,
        insertOccurrence, recordOccurrence, valueTypeOf, jsTypeof]
    exact (h.1 _ hf).2.1 ⟨by norm_num, by norm_num⟩

/-- Claim C5: extending a sample list by further samples drawn with
the same field set and the same value types never decreases the
confidence relative to the shorter prefix, and with 0 or 1 samples the
confidence is exactly 0.5. -/
theorem confidence_monotone :
    (∀ (K T : List String) (s₁ s₂ ext : List Sample), K.Nodup →
        s₂ = s₁ ++ ext →
        (∀ s ∈ s₂, s.map Prod.fst = K) →
        (∀ s ∈ s₂, s.map (fun kv => valueTypeOf kv.2) = T) →
        (analyzeFrontmatterPatterns s₁).confidence
          ≤ (analyzeFrontmatterPatterns s₂).confidence) ∧
    (∀ samples : List Sample, samples.length ≤ 1 →
        (analyzeFrontmatterPatterns samples).confidence = 1/2) := by
  constructor
  · intro K T s₁ s₂ ext hK hext hkeys htypes
    by_cases h1 : s₁.length < 2
    · rw [analyzeFrontmatterPatterns_confidence s₁, calculateConfidence_low _ _ h1,
        analyzeFrontmatterPatterns_confidence s₂]
      exact calculateConfidence_ge_half _ _
    · have h2 : 2 ≤ s₁.length := not_lt.mp h1
      have hlen : s₁.length ≤ s₂.length := by rw [hext]; simp
      have h2b : 2 ≤ s₂.length := le_trans h2 hlen
      have hcons1 : ∀ s ∈ s₁, s.map Prod.fst = K := fun s hs =>
        hkeys s (by rw [hext]; exact List.mem_append_left ext hs)
      rw [consistent_confidence K hK s₁ hcons1 h2,
        consistent_confidence K hK s₂ hkeys h2b]
      apply min_le_min (le_refl 1)
      have hfive : (if 5 ≤ s₁.length then (1:ℚ)/10 else 0)
          ≤ (if 5 ≤ s₂.length then (1:ℚ)/10 else 0) := by
        by_cases h5 : 5 ≤ s₁.length
        · simp [h5, le_trans h5 hlen]
        · by_cases h5b : 5 ≤ s₂.length <;> simp [h5, h5b] <;> norm_num
      linarith [hfive]
  · intro samples hle
    rw [analyzeFrontmatterPatterns_confidence]
    exact calculateConfidence_low _ _ (by omega)

/-- Witness for C5: one consistent `title`-only sample extended by a
second one; the confidence goes from 0.5 to 4/5, and a single sample
evaluates to 0.5. -/
theorem confidence_monotone_witness :
    (analyzeFrontmatterPatterns [[("title", JsValue.str "a")]]).confidence
        ≤ (analyzeFrontmatterPatterns
            [[("title", JsValue.str "a")], [("title", JsValue.str "b")]]).confidence
      ∧ (analyzeFrontmatterPatterns [[("title", JsValue.str "a")]]).confidence = 1/2 := by
  constructor
  · exact confidence_monotone.1 ["title"] ["string"]
      [[("title", JsValue.str "a")]]
      [[("title", JsValue.str "a")], [("title", JsValue.str "b")]]
      [[("title", JsValue.str "b")]]
      (by decide) rfl (by simp) (by simp [valueTypeOf, jsTypeof])
  · exact confidence_monotone.2 [[("title", JsValue.str "a")]] (by decide)

/-- Claim C10: for every field list and sample count,
`calculateConfidence` returns a value in `{0.5} ∪ [0.6, 1.0]`, so the
confidence attached to any produced `FrontmatterPattern` is never
below 0.5 and never above 1.0. -/
theorem confidence_range :
    (∀ (fields : List FieldPattern) (n : ℕ),
        calculateConfidence fields n = 1/2 ∨
          ((3:ℚ)/5 ≤ calculateConfidence fields n ∧ calculateConfidence fields n ≤ 1)) ∧
    (∀ samples : List Sample,
        (1:ℚ)/2 ≤ (analyzeFrontmatterPatterns samples).confidence ∧
          (analyzeFrontmatterPatterns samples).confidence ≤ 1) := by
  constructor
  · intro fields n
    by_cases h : n < 2
    · exact Or.inl (calculateConfidence_low fields n h)
    · refine Or.inr ⟨?_, calculateConfidence_le_one fields n⟩
      rw [calculateConfidence_eq fields n (not_lt.mp h)]
      refine le_min (by norm_num) ?_
      split_ifs <;> norm_num
  · intro samples
    rw [analyzeFrontmatterPatterns_confidence]
    exact ⟨calculateConfidence_ge_half _ _, calculateConfidence_le_one _ _⟩

/-- Claim C4: with at least 2 samples the confidence equals
`min(1.0, 0.6 + 0.2·[title at ≥0.8] + 0.2·[date-alias at ≥0.8]
+ 0.1·[≥3 fields at ≥0.8] + 0.1·[≥5 samples])`; with fewer than 2
samples it is exactly 0.5 regardless of content. -/
theorem confidence_formula :
    (∀ samples : List Sample, 2 ≤ samples.length →
      (analyzeFrontmatterPatterns samples).confidence =
        min 1 ((3:ℚ)/5
          + (if ∃ f ∈ (analyzeFrontmatterPatterns samples).commonFields,
                f.fieldName = "title" ∧ (4:ℚ)/5 ≤ f.frequency then (1:ℚ)/5 else 0)
          + (if ∃ f ∈ (analyzeFrontmatterPatterns samples).commonFields,
                (f.fieldName = "date" ∨ f.fieldName = "publishedAt" ∨ f.fieldName = "publishDate")
                  ∧ (4:ℚ)/5 ≤ f.frequency then (1:ℚ)/5 else 0)
          + (if 3 ≤ ((analyzeFrontmatterPatterns samples).commonFields.filter
                fun f => decide ((4:ℚ)/5 ≤ f.frequency)).length then (1:ℚ)/10 else 0)
          + (if 5 ≤ samples.length then (1:ℚ)/10 else 0))) ∧
    (∀ samples : List Sample, samples.length < 2 →
      (analyzeFrontmatterPatterns samples).confidence = 1/2) := by
  constructor
  · intro samples h2
    rw [analyzeFrontmatterPatterns_confidence]
    exact calculateConfidence_eq _ _ h2
  · intro samples h
    rw [analyzeFrontmatterPatterns_confidence]
    exact calculateConfidence_low _ _ h

/-- Witness for C4 at concrete inputs: two samples sharing only a
`title` field give confidence `min 1 (3/5 + 1/5) = 4/5`, and a single
sample gives 0.5. -/
theorem confidence_formula_witness :
    (analyzeFrontmatterPatterns [[("title", .str "a")], [("title", .str "b")]]).confidence = 4/5
      ∧ (analyzeFrontmatterPatterns [[("title", .str "a")]]).confidence = 1/2 := by
  constructor
  · rw [confidence_formula.1 [[("title", .str "a")], [("title", .str "b")]] (by decide)]
    norm_num +decide [analyzeFrontmatterPatterns, accumSamples, accumSample,
      insertOccurrence, recordOccurrence, valueTypeOf, jsTypeof]
  · rw [confidence_formula.2 [[("title", .str "a")]] (by decide)]

/-- Counterexample to C6 as stated: an object whose shape has the
three members `src`, `alt`, `caption` is still classified `image`
(the claim demands `object` for three or more members), and a
two-member object with the source-like key `url` instead of `src` is
classified `object` (the claim's {src|url, alt} convention demands
`image`). -/
theorem image_detection_counterexample :
    (getZodFieldType (.zobject [("src", .zstring), ("alt", .zstring),
        ("caption", .zstring)])).1 = SchemaFieldType.image ∧
    ¬ (getZodFieldType (.zobject [("src", .zstring), ("alt", .zstring),
        ("caption", .zstring)])).1 = SchemaFieldType.object ∧
    (getZodFieldType (.zobject [("url", .zstring), ("alt", .zstring)])).1
      = SchemaFieldType.object := by
  decide

/-- Claim C6 (amended): an object-typed member is classified `image`
exactly when its shape contains both a member named `src` and a member
named `alt` — additional members beyond those two do not prevent the
`image` classification, and a shape lacking either key (including one
using `url` in place of `src`) is classified `object`.  The
classification is unchanged under an `optional` wrapper. -/
theorem image_detection (shape : List (String × ZodDef)) :
    ((getZodFieldType (.zobject shape)).1 = SchemaFieldType.image ↔
      ("src" ∈ shape.map Prod.fst ∧ "alt" ∈ shape.map Prod.fst)) ∧
    (¬("src" ∈ shape.map Prod.fst ∧ "alt" ∈ shape.map Prod.fst) →
      (getZodFieldType (.zobject shape)).1 = SchemaFieldType.object) ∧
    (getZodFieldType (.zoptional (.zobject shape))).1
      = (getZodFieldType (.zobject shape)).1 := by
  have hany : ∀ k : String, ((shape.any (fun e => e.1 == k)) = true ↔ k ∈ shape.map Prod.fst) := by
    intro k
    rw [List.any_eq_true]
    constructor
    · rintro ⟨e, he, hbe⟩
      have hek : e.1 = k := by simpa using hbe
      exact hek ▸ List.mem_map_of_mem Prod.fst he
    · intro hk
      obtain ⟨e, he, hek⟩ := List.mem_map.mp hk
      exact ⟨e, he, by simp [hek]⟩
  refine ⟨?_, ?_, rfl⟩
  · by_cases h1 : "src" ∈ shape.map Prod.fst <;> by_cases h2 : "alt" ∈ shape.map Prod.fst <;>
      simp [getZodFieldType, hany, h1, h2]
  · intro hno
    by_cases h1 : "src" ∈ shape.map Prod.fst <;> by_cases h2 : "alt" ∈ shape.map Prod.fst <;>
      simp_all [getZodFieldType, hany]

/-- Witness for C6's amended statement: a two-member {src, alt} shape
is `image`, and dropping `alt` gives `object`. -/
theorem image_detection_witness :
    (getZodFieldType (.zobject [("src", .zstring), ("alt", .zstring)])).1
        = SchemaFieldType.image ∧
    (getZodFieldType (.zobject [("src", .zstring)])).1 = SchemaFieldType.object := by
  constructor
  · exact (image_detection [("src", .zstring), ("alt", .zstring)]).1.mpr (by simp)
  · exact (image_detection [("src", .zstring)]).2.1 (by simp)

/-- Counterexample to C1 as stated: on a schema declaring exactly
{plain string, plain number, plain boolean, coerced date,
array-of-string with default [], boolean with default false} the ZOD
introspection reports 4 required fields, not 2. -/
theorem roundtrip_schema_counterexample :
    (analyzeZodObjectSchema
        [("title", .zstring), ("views", .znumber), ("featured", .zboolean),
         ("publishedAt", .zeffects .zdate),
         ("tags", .zdefault (.arr []) (.zarray .zstring)),
         ("draft", .zdefault (.bool false) .zboolean)]).requiredFields.length = 4 ∧
    ¬ (analyzeZodObjectSchema
        [("title", .zstring), ("views", .znumber), ("featured", .zboolean),
         ("publishedAt", .zeffects .zdate),
         ("tags", .zdefault (.arr []) (.zarray .zstring)),
         ("draft", .zdefault (.bool false) .zboolean)]).requiredFields.length = 2 := by
  refine ⟨rfl, ?_⟩
  decide

/-- Claim C1 (amended): for a schema declaring exactly the fields
{plain string, plain number, plain boolean, coerced date,
array-of-string with default [], boolean with default false}, schema
analysis reports exactly the 4 fields with no default and no optional
wrapper as required, and reports each remaining field as optional with
its literal default preserved exactly. -/
theorem roundtrip_schema_classification (n1 n2 n3 n4 n5 n6 : String)
    (hnd : ([n1, n2, n3, n4, n5, n6] : List String).Nodup) :
    (analyzeZodObjectSchema
        [(n1, .zstring), (n2, .znumber), (n3, .zboolean), (n4, .zeffects .zdate),
         (n5, .zdefault (.arr []) (.zarray .zstring)),
         (n6, .zdefault (.bool false) .zboolean)]).requiredFields =
      [⟨n1, .string, true, none, none⟩, ⟨n2, .number, true, none, none⟩,
       ⟨n3, .boolean, true, none, none⟩, ⟨n4, .date, true, none, none⟩] ∧
    (analyzeZodObjectSchema
        [(n1, .zstring), (n2, .znumber), (n3, .zboolean), (n4, .zeffects .zdate),
         (n5, .zdefault (.arr []) (.zarray .zstring)),
         (n6, .zdefault (.bool false) .zboolean)]).optionalFields =
      [⟨n5, .array, false, some (.arr []), none⟩,
       ⟨n6, .boolean, false, some (.bool false), none⟩] :=
  ⟨rfl, rfl⟩

/-- Witness for C1's amended statement at concrete distinct field
names. -/
theorem roundtrip_schema_classification_witness :
    (analyzeZodObjectSchema
        [("title", .zstring), ("views", .znumber), ("featured", .zboolean),
         ("publishedAt", .zeffects .zdate),
         ("tags", .zdefault (.arr []) (.zarray .zstring)),
         ("draft", .zdefault (.bool false) .zboolean)]).optionalFields =
      [⟨"tags", .array, false, some (.arr []), none⟩,
       ⟨"draft", .boolean, false, some (.bool false), none⟩] :=
  (roundtrip_schema_classification "title" "views" "featured" "publishedAt" "tags" "draft"
    (by decide)).2

/-- Claim C2 (code divergence): the text-parsing fallback
`parseSchemaField` computes `required` from the presence of
`.optional()` alone, so the field line
`draft: z.boolean().default(false)` is reported `required = true`
together with `defaultValue = false`, violating the invariant that a
field carrying a default is never required (the invariant the primary
ZOD introspection path does maintain through `isZodFieldOptional`). -/
theorem default_implies_optional_violation (jsonParse : String → Option JsValue) :
    parseSchemaField jsonParse "draft: z.boolean().default(false)" =
      some ⟨"draft", SchemaFieldType.boolean, true, some (.bool false), none⟩ :=
  rfl

/-- Claim C8: when every example of a date-like field is a plain
calendar-date string (`YYYY-MM-DD`), the synthesized default is the
current date in the same format (`toISOString().split('T')[0]`); when
every example is a richer (non-calendar-format) string, it is the
timestamp-level ISO string (`toISOString()`); when every example is a
`Date` instance, it is a `Date` instance (not a string). -/
theorem date_default_matches_examples (clock : Clock) (p : FieldPattern)
    (hne : p.examples ≠ []) :
    (p.examples.all isSimpleDateStrValue = true →
      getDateValueMatchingPattern clock p = .str clock.dateOnly) ∧
    (p.examples.all (fun ex => isStrValue ex && !isSimpleDateStrValue ex) = true →
      getDateValueMatchingPattern clock p = .str clock.isoFull) ∧
    (p.examples.all isDateValue = true →
      getDateValueMatchingPattern clock p = .date clock.instant) := by
  obtain ⟨ex0, hex0⟩ := List.exists_mem_of_ne_nil p.examples hne
  refine ⟨?_, ?_, ?_⟩
  · intro hall
    have h0 := List.all_eq_true.mp hall ex0 hex0
    have hstr : p.examples.any isStrValue = true := by
      rw [List.any_eq_true]
      refine ⟨ex0, hex0, ?_⟩
      cases ex0 <;> simp_all [isStrValue, isSimpleDateStrValue]
    have hnodate : p.examples.any isDateValue = false := by
      rw [← Bool.not_eq_true, List.any_eq_true]
      rintro ⟨ex, hex, hd⟩
      have := List.all_eq_true.mp hall ex hex
      cases ex <;> simp_all [isDateValue, isSimpleDateStrValue]
    have hsimple : (p.examples.filter isStrValue).any isSimpleDateStrValue = true := by
      rw [List.any_eq_true]
      refine ⟨ex0, List.mem_filter.mpr ⟨hex0, ?_⟩, h0⟩
      cases ex0 <;> simp_all [isStrValue, isSimpleDateStrValue]
    simp [getDateValueMatchingPattern, hstr, hnodate, hsimple]
  · intro hall
    have h0 := List.all_eq_true.mp hall ex0 hex0
    have hstr : p.examples.any isStrValue = true := by
      rw [List.any_eq_true]
      refine ⟨ex0, hex0, ?_⟩
      exact (Bool.and_eq_true _ _ |>.mp h0).1
    have hnodate : p.examples.any isDateValue = false := by
      rw [← Bool.not_eq_true, List.any_eq_true]
      rintro ⟨ex, hex, hd⟩
      have := List.all_eq_true.mp hall ex hex
      cases ex <;> simp_all [isDateValue, isStrValue]
    have hnosimple : (p.examples.filter isStrValue).any isSimpleDateStrValue = false := by
      rw [← Bool.not_eq_true, List.any_eq_true]
      rintro ⟨ex, hex, hs⟩
      have hmem := (List.mem_filter.mp hex).1
      have := List.all_eq_true.mp hall ex hmem
      simp_all
    simp [getDateValueMatchingPattern, hstr, hnodate, hnosimple]
  · intro hall
    have h0 := List.all_eq_true.mp hall ex0 hex0
    have hdate : p.examples.any isDateValue = true := List.any_eq_true.mpr ⟨ex0, hex0, h0⟩
    have hnostr : p.examples.any isStrValue = false := by
      rw [← Bool.not_eq_true, List.any_eq_true]
      rintro ⟨ex, hex, hs⟩
      have := List.all_eq_true.mp hall ex hex
      cases ex <;> simp_all [isDateValue, isStrValue]
    simp [getDateValueMatchingPattern, hnostr, hdate]

/-- Witness for C8 at concrete example lists: `["2024-01-02"]` gives
the date-only string, `["Jan 2, 2024"]` gives the full ISO string, and
a lone `Date` instance gives a `Date` instance. -/
theorem date_default_matches_examples_witness :
    getDateValueMatchingPattern ⟨"2025-07-20T10:00:00.000Z", "2025-07-20", 0⟩
        ⟨"date", 1, ["string"], [.str "2024-01-02"]⟩ = .str "2025-07-20" ∧
    getDateValueMatchingPattern ⟨"2025-07-20T10:00:00.000Z", "2025-07-20", 0⟩
        ⟨"date", 1, ["string"], [.str "Jan 2, 2024"]⟩ = .str "2025-07-20T10:00:00.000Z" ∧
    getDateValueMatchingPattern ⟨"2025-07-20T10:00:00.000Z", "2025-07-20", 0⟩
        ⟨"date", 1, ["object"], [.date 17216640]⟩ = .date 0 := by
  refine ⟨?_, ?_, ?_⟩
  · exact (date_default_matches_examples _ _ (List.cons_ne_nil _ _)).1 (by decide)
  · exact (date_default_matches_examples _ _ (List.cons_ne_nil _ _)).2.1 (by decide)
  · exact (date_default_matches_examples _ _ (List.cons_ne_nil _ _)).2.2 (by decide)

/-- Claim C9: `detectFrontmatterPattern` never throws to its caller
(it is a total function of the directory state): a missing directory,
a directory with no markdown files, and a directory whose files yield
no parseable non-empty frontmatter each produce `success = false` with
three mutually distinct reason messages; files that fail to parse are
skipped, so a directory with 1 well-formed post and 1 post whose
frontmatter block fails to parse yields `success = true` and
`totalPosts = 1`. -/
theorem detection_error_handling :
    (∀ (contentDir : String) (clock : Clock) (maxPosts : ℕ),
      (detectFrontmatterPattern contentDir none clock maxPosts).success = false ∧
      (detectFrontmatterPattern contentDir none clock maxPosts).message
        = "Directory not found: " ++ contentDir) ∧
    (∀ (contentDir : String) (files : List MdFile) (clock : Clock) (maxPosts : ℕ),
      (∀ f ∈ files, ¬ extname f.name = ".md") →
      (detectFrontmatterPattern contentDir (some files) clock maxPosts).success = false ∧
      (detectFrontmatterPattern contentDir (some files) clock maxPosts).message
        = "No markdown files found to analyze") ∧
    (∀ (contentDir : String) (files : List MdFile) (clock : Clock) (maxPosts : ℕ),
      (files.filter (fun f => extname f.name == ".md")).take maxPosts ≠ [] →
      (∀ f ∈ files, f.parsed = none ∨ f.parsed = some []) →
      (detectFrontmatterPattern contentDir (some files) clock maxPosts).success = false ∧
      (detectFrontmatterPattern contentDir (some files) clock maxPosts).message
        = "No valid frontmatter found in existing posts") ∧
    (∀ contentDir : String,
      "Directory not found: " ++ contentDir ≠ "No markdown files found to analyze" ∧
      "Directory not found: " ++ contentDir ≠ "No valid frontmatter found in existing posts" ∧
      ("No markdown files found to analyze" : String)
        ≠ "No valid frontmatter found in existing posts") ∧
    (∀ (contentDir : String) (clock : Clock) (goodName badName : String) (data : Sample),
      extname goodName = ".md" → extname badName = ".md" → data ≠ [] →
      (detectFrontmatterPattern contentDir
          (some [⟨goodName, some data⟩, ⟨badName, none⟩]) clock).success = true ∧
      ((detectFrontmatterPattern contentDir
          (some [⟨goodName, some data⟩, ⟨badName, none⟩]) clock).pattern.map
        FrontmatterPattern.totalPosts) = some 1) := by
  refine ⟨?_, ?_, ?_, ?_, ?_⟩
  · intro contentDir clock maxPosts
    exact ⟨rfl, rfl⟩
  · intro contentDir files clock maxPosts h
    have hfilter : files.filter (fun f => extname f.name == ".md") = [] := by
      rw [List.filter_eq_nil_iff]
      intro f hf
      simp [h f hf]
    constructor <;> simp [detectFrontmatterPattern, hfilter]
  · intro contentDir files clock maxPosts hne hparse
    have hcase : ¬(maxPosts = 0 ∨ ∀ a ∈ files, ¬ extname a.name = ".md") := by
      rintro (h0 | hall)
      · exact hne (by simp [h0])
      · refine hne ?_
        have hfind : files.filter (fun f => extname f.name == ".md") = [] := by
          rw [List.filter_eq_nil_iff]
          intro f hf
          simp [hall f hf]
        simp [hfind]
    have hsample : ∀ l : List MdFile, (∀ f ∈ l, f.parsed = none ∨ f.parsed = some []) →
        ∀ acc : List Sample,
          l.foldl (fun acc f =>
            match f.parsed with
            | some data => if 0 < data.length then acc ++ [data] else acc
            | none => acc) acc = acc := by
      intro l
      induction l with
      | nil => intro _ acc; rfl
      | cons f fs ih =>
        intro hcond acc
        have hstep := hcond f (by simp)
        have hrest : ∀ g ∈ fs, g.parsed = none ∨ g.parsed = some [] :=
          fun g hg => hcond g (by simp [hg])
        rcases hstep with h | h <;> simp [List.foldl_cons, h, ih hrest]
    have hcond : ∀ f ∈ (files.filter (fun f => extname f.name == ".md")).take maxPosts,
        f.parsed = none ∨ f.parsed = some [] := by
      intro f hf
      exact hparse f (List.mem_of_mem_filter (List.mem_of_mem_take hf))
    constructor <;>
      simp [detectFrontmatterPattern, hcase, hsample _ hcond]
  · intro contentDir
    refine ⟨?_, ?_, by decide⟩
    · intro h
      have h2 := congrArg (fun s => s.data.head?) h
      simp only [String.data_append] at h2
      simp at h2
    · intro h
      have h2 := congrArg (fun s => s.data.head?) h
      simp only [String.data_append] at h2
      simp at h2
  · intro contentDir clock goodName badName data hg hb hdata
    have hpos : 0 < data.length := List.length_pos.mpr hdata
    constructor
    · simp [detectFrontmatterPattern, hg, hb, hpos]
    · simp [detectFrontmatterPattern, hg, hb, hpos, analyzeFrontmatterPatterns_totalPosts]

/-- Witness for C9 at a concrete directory: `a.md` parses to a
one-field frontmatter map, `b.md` fails to parse; detection succeeds
with one analyzed post, while an empty listing reports the
no-markdown-files message. -/
theorem detection_error_handling_witness :
    (detectFrontmatterPattern "posts"
        (some [⟨"a.md", some [("title", .str "x")]⟩, ⟨"b.md", none⟩])
        ⟨"2025-07-20T10:00:00.000Z", "2025-07-20", 0⟩).success = true ∧
    ((detectFrontmatterPattern "posts"
        (some [⟨"a.md", some [("title", .str "x")]⟩, ⟨"b.md", none⟩])
        ⟨"2025-07-20T10:00:00.000Z", "2025-07-20", 0⟩).pattern.map
      FrontmatterPattern.totalPosts) = some 1 ∧
    (detectFrontmatterPattern "posts" (some [⟨"a.txt", none⟩])
        ⟨"2025-07-20T10:00:00.000Z", "2025-07-20", 0⟩ 10).message
      = "No markdown files found to analyze" := by
  refine ⟨?_, ?_, ?_⟩
  · exact (detection_error_handling.2.2.2.2 "posts" _ "a.md" "b.md" [("title", .str "x")]
      (by decide) (by decide) (List.cons_ne_nil _ _)).1
  · exact (detection_error_handling.2.2.2.2 "posts" _ "a.md" "b.md" [("title", .str "x")]
      (by decide) (by decide) (List.cons_ne_nil _ _)).2
  · exact (detection_error_handling.2.1 "posts" [⟨"a.txt", none⟩] _ 10 (by decide)).2

/-- Claim C7: with a statistical pattern available (a successful
detection carrying an analyzer-produced pattern and a template), a
framework model available (a primary framework), and no empty-object
conflict between the statistical template and the schema analysis, the
framework model is preferred exactly when the statistical confidence
is < 0.7 and the framework confidence is > 0.8. -/
theorem conflict_resolution_policy (samples : List Sample)
    (tmpl : List (String × JsValue)) (msg : String)
    (fd : FrameworkDetectionResult) (prim : FrameworkInfo)
    (hprim : fd.primary = some prim)
    (hnoconf : (match fd.schemaAnalysis with
        | some sa => sa.success && detectSchemaConflicts tmpl sa
        | none => false) = false) :
    (shouldPreferFrameworkOverPattern
        ⟨some (analyzeFrontmatterPatterns samples), true, msg, some tmpl⟩ fd = true) ↔
      ((analyzeFrontmatterPatterns samples).confidence < 7/10
        ∧ 8/10 < prim.confidence) := by
  have hconf2 : (analyzeFrontmatterPatterns samples).confidence ≠ 0 := by
    have hge := calculateConfidence_ge_half
      (analyzeFrontmatterPatterns samples).commonFields samples.length
    rw [← analyzeFrontmatterPatterns_confidence] at hge
    intro h
    rw [h] at hge
    norm_num at hge
  rcases hsa : fd.schemaAnalysis with _ | sa
  · by_cases hp : prim.confidence = 0
    · simp [shouldPreferFrameworkOverPattern, hprim, hsa, hp]
      norm_num
    · simp [shouldPreferFrameworkOverPattern, hprim, hsa, hconf2, hp]
  · rw [hsa] at hnoconf
    have hncf : sa.success = true → detectSchemaConflicts tmpl sa = false := by
      simpa using hnoconf
    by_cases hp : prim.confidence = 0
    · simp [shouldPreferFrameworkOverPattern, hprim, hsa, hp]
      constructor
      · rintro ⟨hs, hd⟩
        rw [hncf hs] at hd
        exact absurd hd (by simp)
      · rintro ⟨_, h8⟩
        norm_num at h8
    · simp [shouldPreferFrameworkOverPattern, hprim, hsa, hconf2, hp]
      intro hs hd
      rw [hncf hs] at hd
      exact absurd hd (by simp)

/-- Witness for C7: statistical confidence 0.5 against framework
confidence 0.9 selects the framework model; statistical confidence 0.9
against framework confidence 0.5 keeps the statistical pattern. -/
theorem conflict_resolution_policy_witness :
    shouldPreferFrameworkOverPattern
        ⟨some (analyzeFrontmatterPatterns [[("x", .str "v")]]), true, "m",
          some [("x", .str "v")]⟩
        ⟨[], some ⟨"Astro", none, 9/10, []⟩, "", none, none⟩ = true ∧
    shouldPreferFrameworkOverPattern
        ⟨some (analyzeFrontmatterPatterns
            [[("title", .str "a"), ("a", .num 1), ("b", .num 2)],
             [("title", .str "b"), ("a", .num 3), ("b", .num 4)]]), true, "m",
          some [("title", .str "t")]⟩
        ⟨[], some ⟨"Hugo", none, 1/2, []⟩, "", none, none⟩ = false := by
  constructor
  · refine (conflict_resolution_policy [[("x", .str "v")]] [("x", .str "v")] "m"
      ⟨[], some ⟨"Astro", none, 9/10, []⟩, "", none, none⟩ ⟨"Astro", none, 9/10, []⟩
      rfl rfl).mpr ⟨?_, by norm_num⟩
    have hv : (analyzeFrontmatterPatterns [[("x", .str "v")]]).confidence = 1/2 := by
      rw [analyzeFrontmatterPatterns_confidence]
      exact calculateConfidence_low _ _ (by norm_num)
    rw [hv]
    norm_num
  · have hiff := conflict_resolution_policy
      [[("title", .str "a"), ("a", .num 1), ("b", .num 2)],
       [("title", .str "b"), ("a", .num 3), ("b", .num 4)]]
      [("title", .str "t")] "m"
      ⟨[], some ⟨"Hugo", none, 1/2, []⟩, "", none, none⟩ ⟨"Hugo", none, 1/2, []⟩
      rfl rfl
    have hno : ¬((analyzeFrontmatterPatterns
        [[("title", .str "a"), ("a", .num 1), ("b", .num 2)],
         [("title", .str "b"), ("a", .num 3), ("b", .num 4)]]).confidence < 7/10
        ∧ (8:ℚ)/10 < 1/2) := by
      rintro ⟨_, h⟩
      norm_num at h
    rcases Bool.eq_false_or_eq_true (shouldPreferFrameworkOverPattern
        ⟨some (analyzeFrontmatterPatterns
            [[("title", .str "a"), ("a", .num 1), ("b", .num 2)],
             [("title", .str "b"), ("a", .num 3), ("b", .num 4)]]), true, "m",
          some [("title", .str "t")]⟩
        ⟨[], some ⟨"Hugo", none, 1/2, []⟩, "", none, none⟩) with h | h
    · exact absurd (hiff.mp h) hno
    · exact h

end Blogue
